import Mathlib

/-!
Verification of the SDK memory manager (src/src/memory_manager.cpp,
src/include/memory_manager.hpp) against its natural-language specification.

Modelling conventions:
* Pointers are natural-number addresses; the null pointer is the address 0.
  A pool arena allocated by `make_unique<uint8_t[]>` is modelled by its base
  address `memStart`; arenas of real pools have a nonzero base.
* `size_t` arithmetic wraps modulo 2^64 (`SIZE_MOD`); the wrap is written
  explicitly wherever the source can overflow or underflow.
* The free list is a `std::vector<void*>` used as a stack (`push_back`,
  `back`, `pop_back`).  The Lean list stores the stack top first: the head of
  `freeList` is the back of the vector, so `push_back` is `cons` and
  `pop_back` takes the tail.
* The general (system) allocator `std::aligned_alloc` is modelled by a fresh
  address supplied as an explicit argument (`freshFallback`); likewise the
  arena address of a newly constructed pool (`freshArena`).  The alignment
  argument only reaches `aligned_alloc` and has no observable effect in the
  model, so it is dropped.
* `std::call_once(poolInitFlags[index], ...)` is modelled sequentially: the
  initializer body runs exactly when the slot is still empty.  Mutexes and
  atomics serialize; the model is the sequential semantics.
-/

namespace SDK

/-- Modulus of `size_t` arithmetic. -/
def SIZE_MOD : Nat := 2 ^ 64

/-- The loop `while (temp > 1) { temp >>= 1; index++; }` from
`MemoryManager::getPoolIndex`, written with explicit fuel so that it is
structural.  The loop halves its argument, so `fuel = n` always suffices to
reach the exit condition. -/
def log2fuel (fuel n : Nat) : Nat :=
  match fuel with
  | 0 => 0
  | f + 1 => if n ≤ 1 then 0 else log2fuel f (n / 2) + 1

/-- Floor base-2 logarithm as computed by the `getPoolIndex` loop. -/
def log2floor (n : Nat) : Nat := log2fuel n n

/-- `__builtin_clz` counts the leading zero bits of an `unsigned int` (32
bits).  Its argument in the source is a 64-bit `size_t`, implicitly
truncated modulo 2^32 at the call.  (`__builtin_clz(0)` is undefined in C;
the model returns 31 there, which no claim relies on.) -/
def clz32 (m : Nat) : Nat := 31 - log2floor m

/-- `static size_t nextPowerOf2(size_t n)` (memory_manager.cpp:14-18):
`if (n <= 1) return 1; return 1ULL << (64 - __builtin_clz(n - 1));`.
The argument `n - 1` is truncated to 32 bits by the call to
`__builtin_clz`, and the 64-bit shift wraps modulo 2^64. -/
def nextPowerOf2 (n : Nat) : Nat :=
  if n ≤ 1 then 1
  else (2 ^ (64 - clz32 ((n - 1) % 2 ^ 32))) % SIZE_MOD

/-- `MemoryManager::roundToPowerOf2` (memory_manager.cpp:100-104). -/
def roundToPowerOf2 (size : Nat) : Nat :=
  if size = 0 then 1
  else if size ≤ 1 then 1
  else nextPowerOf2 size

/-- `MemoryManager::getSizeCategory` (memory_manager.hpp:184). -/
def getSizeCategory (size : Nat) : Nat := roundToPowerOf2 size

/-- `MemoryManager::MAX_POOL_SIZE_BITS` (memory_manager.hpp:81). -/
def MAX_POOL_SIZE_BITS : Nat := 20

/-- `MemoryManager::MAX_POOLS` (memory_manager.hpp:82). -/
def MAX_POOLS : Nat := MAX_POOL_SIZE_BITS + 1

/-- `MemoryManager::getMaxSupportedSize` (memory_manager.hpp:185). -/
def getMaxSupportedSize : Nat := 2 ^ MAX_POOL_SIZE_BITS

/-- `MemoryManager::getPoolIndex` (memory_manager.cpp:106-119): round to a
power of two, take its floor log2 by repeated halving, clamp to
`MAX_POOLS - 1`. -/
def getPoolIndex (size : Nat) : Nat :=
  if size = 0 then 0
  else min (log2floor (roundToPowerOf2 size)) (MAX_POOLS - 1)

/-- State of a `MemoryPool` (memory_manager.hpp:37-75).  `memStart` is the
base address of the owned arena `memory`; the head of `freeList` is the back
of the `std::vector`. -/
structure MemoryPool where
  objectSize : Nat
  objectCount : Nat
  poolSize : Nat
  memStart : Nat
  freeList : List Nat
  allocatedObjects : Nat
  totalAllocations : Nat
  totalDeallocations : Nat
deriving DecidableEq

attribute [ext] MemoryPool

/-- `MemoryPool::initializePool` (memory_manager.cpp:29-36): push the base
address of every block, in increasing address order.  The last pushed
address is the back of the vector, hence the head of the model list. -/
def initFreeList (memStart objSize objCount : Nat) : List Nat :=
  ((List.range objCount).map fun i => memStart + i * objSize).reverse

/-- The `MemoryPool` constructor (memory_manager.cpp:21-27) followed by
`initializePool`; `poolSize = objSize * objCount` computed in `size_t`. -/
def MemoryPool.create (objSize objCount memStart : Nat) : MemoryPool :=
  { objectSize := objSize
    objectCount := objCount
    poolSize := (objSize * objCount) % SIZE_MOD
    memStart := memStart
    freeList := initFreeList memStart objSize objCount
    allocatedObjects := 0
    totalAllocations := 0
    totalDeallocations := 0 }

/-- `MemoryPool::containsPointer` (memory_manager.cpp:74-78). -/
def MemoryPool.containsPointer (pool : MemoryPool) (p : Nat) : Prop :=
  pool.memStart ≤ p ∧ p < pool.memStart + pool.poolSize

instance (pool : MemoryPool) (p : Nat) : Decidable (pool.containsPointer p) := by
  unfold MemoryPool.containsPointer
  infer_instance

/-- `MemoryPool::allocate` (memory_manager.cpp:38-52): pop the back of the
free list, or return null (`none`) when the pool is exhausted. -/
def MemoryPool.allocate (pool : MemoryPool) : Option Nat × MemoryPool :=
  match pool.freeList with
  | [] => (none, pool)
  | ptr :: rest =>
      (some ptr,
       { pool with
           freeList := rest
           allocatedObjects := (pool.allocatedObjects + 1) % SIZE_MOD
           totalAllocations := (pool.totalAllocations + 1) % SIZE_MOD })

/-- `MemoryPool::deallocate` (memory_manager.cpp:54-72): reject null and
out-of-arena pointers, then reject pointers whose offset from the arena base
is not a multiple of `objectSize`; otherwise push the address back and
update the counters (`fetch_sub` on `allocatedObjects` wraps). -/
def MemoryPool.deallocate (pool : MemoryPool) (p : Nat) : Bool × MemoryPool :=
  if p = 0 ∨ ¬ pool.containsPointer p then (false, pool)
  else if (p - pool.memStart) % pool.objectSize ≠ 0 then (false, pool)
  else
    (true,
     { pool with
         freeList := p :: pool.freeList
         allocatedObjects := (pool.allocatedObjects + (SIZE_MOD - 1)) % SIZE_MOD
         totalDeallocations := (pool.totalDeallocations + 1) % SIZE_MOD })

/-- `MemoryPool::getAvailableObjects` (memory_manager.cpp:80-83). -/
def MemoryPool.getAvailableObjects (pool : MemoryPool) : Nat := pool.freeList.length

/-- `PoolStrategy` (memory_manager.hpp:17-22). -/
structure PoolStrategy where
  calculatePoolSize : Nat → Nat
  calculateObjectCount : Nat → Nat

/-- `DefaultPoolStrategy` (memory_manager.hpp:25-34). -/
def DefaultPoolStrategy : PoolStrategy :=
  { calculatePoolSize := fun objectSize => (256 * objectSize) % SIZE_MOD
    calculateObjectCount := fun _ => 256 }

/-- State of a `MemoryManager` (memory_manager.hpp:78-186).  `pools j` is
the slot `pools[j]` for `j < MAX_POOLS`; larger indices are never used. -/
structure MemoryManager where
  pools : Nat → Option MemoryPool
  strategy : PoolStrategy
  totalAllocations : Nat
  totalDeallocations : Nat
  fallbackAllocations : Nat

attribute [ext] MemoryManager

/-- Writing slot `i` of the pool array. -/
def setPool (ps : Nat → Option MemoryPool) (i : Nat) (pool : MemoryPool) :
    Nat → Option MemoryPool :=
  fun j => if j = i then some pool else ps j

/-- The default `MemoryManager` constructor (memory_manager.cpp:92-94). -/
def MemoryManager.mkWithStrategy (s : PoolStrategy) : MemoryManager :=
  { pools := fun _ => none
    strategy := s
    totalAllocations := 0
    totalDeallocations := 0
    fallbackAllocations := 0 }

/-- A fresh manager with the default strategy (memory_manager.cpp:92-94). -/
def MemoryManager.fresh : MemoryManager := MemoryManager.mkWithStrategy DefaultPoolStrategy

/-- `MemoryManager::getOrCreatePool` (memory_manager.cpp:121-135).
`std::call_once` is modelled sequentially: when the slot is empty the
initializer constructs the pool (its arena placed at `freshArena`) with the
object count given by the current strategy.  Returns the slot index, the
pool now in the slot, and the updated manager. -/
def MemoryManager.getOrCreatePool (m : MemoryManager) (size freshArena : Nat) :
    Nat × MemoryPool × MemoryManager :=
  let index := getPoolIndex size
  match m.pools index with
  | some pool => (index, pool, m)
  | none =>
      let powerOf2Size := roundToPowerOf2 size
      let objectCount := m.strategy.calculateObjectCount powerOf2Size
      let pool := MemoryPool.create powerOf2Size objectCount freshArena
      (index, pool, { m with pools := setPool m.pools index pool })

/-- `MemoryManager::findPoolForPointer` (memory_manager.cpp:137-144): scan
the slots in index order and return the first pool whose arena contains the
pointer.  The model returns the slot index together with the pool (the C++
function returns a raw pool pointer, which the index identifies here). -/
def scanPools (ps : Nat → Option MemoryPool) (p : Nat) : List Nat → Option (Nat × MemoryPool)
  | [] => none
  | i :: rest =>
      match ps i with
      | some pool => if pool.containsPointer p then some (i, pool) else scanPools ps p rest
      | none => scanPools ps p rest

/-- See `scanPools`. -/
def MemoryManager.findPoolForPointer (m : MemoryManager) (p : Nat) :
    Option (Nat × MemoryPool) :=
  scanPools m.pools p (List.range MAX_POOLS)

/-- `MemoryManager::allocate` (memory_manager.cpp:146-173).  `freshArena`
is the arena base a newly created pool would receive; `freshFallback` is
the address `std::aligned_alloc` would return (allocator success is
assumed; the alignment argument has no observable effect in the model).
The C++ null-check on the result of `getOrCreatePool` is dead code in the
model, since the slot always holds a pool after the call-once body ran. -/
def MemoryManager.allocate (m : MemoryManager) (size freshArena freshFallback : Nat) :
    Option Nat × MemoryManager :=
  if size = 0 then (none, m)
  else if getMaxSupportedSize < size then
    (some freshFallback,
     { m with
         fallbackAllocations := (m.fallbackAllocations + 1) % SIZE_MOD
         totalAllocations := (m.totalAllocations + 1) % SIZE_MOD })
  else
    let r := m.getOrCreatePool size freshArena
    match r.2.1.allocate with
    | (some ptr, pool2) =>
        (some ptr,
         { r.2.2 with
             pools := setPool r.2.2.pools r.1 pool2
             totalAllocations := (r.2.2.totalAllocations + 1) % SIZE_MOD })
    | (none, pool2) =>
        (some freshFallback,
         { r.2.2 with
             pools := setPool r.2.2.pools r.1 pool2
             fallbackAllocations := (r.2.2.fallbackAllocations + 1) % SIZE_MOD
             totalAllocations := (r.2.2.totalAllocations + 1) % SIZE_MOD })

/-- `MemoryManager::deallocate` (memory_manager.cpp:175-192): null returns
false; a pointer claimed by some pool is delegated to that pool, counting
the deallocation only on success; any other pointer is released through the
general allocator (`std::free`) and counted. -/
def MemoryManager.deallocate (m : MemoryManager) (p : Nat) : Bool × MemoryManager :=
  if p = 0 then (false, m)
  else
    match m.findPoolForPointer p with
    | some (i, pool) =>
        let r := pool.deallocate p
        if r.1 then
          (true,
           { m with
               pools := setPool m.pools i r.2
               totalDeallocations := (m.totalDeallocations + 1) % SIZE_MOD })
        else (false, { m with pools := setPool m.pools i r.2 })
    | none =>
        (true, { m with totalDeallocations := (m.totalDeallocations + 1) % SIZE_MOD })

/-- `MemoryManager::setStrategy` (memory_manager.cpp:222-226): replaces the
strategy object and nothing else. -/
def MemoryManager.setStrategy (m : MemoryManager) (s : PoolStrategy) : MemoryManager :=
  { m with strategy := s }

/-- `n` successive calls to `MemoryManager::allocate` with the same size,
collecting the returned pointers. -/
def MemoryManager.allocateN (m : MemoryManager) (size freshArena freshFallback : Nat) :
    Nat → List (Option Nat) × MemoryManager
  | 0 => ([], m)
  | n + 1 =>
      let r := m.allocate size freshArena freshFallback
      let rest := r.2.allocateN size freshArena freshFallback n
      (r.1 :: rest.1, rest.2)

/-- The free-list invariant of a pool (spec section 3): every free pointer
lies in the arena at an offset that is a multiple of `objectSize`, the free
list has no duplicates, and the allocated and free counts partition the
capacity. -/
def MemoryPool.Invariant (pool : MemoryPool) : Prop :=
  (∀ p ∈ pool.freeList,
      pool.containsPointer p ∧ (p - pool.memStart) % pool.objectSize = 0) ∧
  pool.freeList.Nodup ∧
  pool.allocatedObjects + pool.freeList.length = pool.objectCount

instance (pool : MemoryPool) : Decidable pool.Invariant := by
  unfold MemoryPool.Invariant
  infer_instance

/-- Structural well-formedness of a pool as built by the constructor:
nonzero block size, `poolSize` the exact product (no `size_t` overflow at
construction), and a capacity representable in `size_t`. -/
def MemoryPool.WF (pool : MemoryPool) : Prop :=
  0 < pool.objectSize ∧
  pool.poolSize = pool.objectSize * pool.objectCount ∧
  pool.objectCount < SIZE_MOD

instance (pool : MemoryPool) : Decidable pool.WF := by
  unfold MemoryPool.WF
  infer_instance

/-- A small concrete manager used to instantiate theorems: slot 0 holds a
fresh two-block pool of 1-byte objects with arena base 100. -/
def demoManager : MemoryManager :=
  { pools := fun j => if j = 0 then some (MemoryPool.create 1 2 100) else none
    strategy := DefaultPoolStrategy
    totalAllocations := 0
    totalDeallocations := 0
    fallbackAllocations := 0 }

/-- A concrete non-default strategy used to instantiate theorems. -/
def sevenStrategy : PoolStrategy :=
  { calculatePoolSize := fun objectSize => (7 * objectSize) % SIZE_MOD
    calculateObjectCount := fun _ => 7 }

/-- Claim C1: evaluation of `getSizeCategory` at the inputs named by the
specification.  The call `__builtin_clz(n - 1)` truncates the 64-bit
operand to `unsigned int` and counts leading zeros of a 32-bit value, so
for every requested size of at least 2 the result carries a spurious
factor of 2^32: `getSizeCategory 5` is 2^35 rather than the smallest power
of two at least 5, and `getSizeCategory 1024` is 2^42 rather than 1024.
The commented-out line `1ULL << (64 - std::countl_zero(n - 1))` in the
source computes exactly the specified values. -/
theorem getSizeCategory_clz32_eval :
    getSizeCategory 0 = 1 ∧ getSizeCategory 1 = 1 ∧
    getSizeCategory 5 = 2 ^ 35 ∧ getSizeCategory 5 ≠ 8 ∧
    getSizeCategory 1024 = 2 ^ 42 ∧ getSizeCategory 1024 ≠ 1024 := by decide

/-- Claim C5: evaluation at the failing input.  The request of 5 bytes has
rounded size 2^35, which exceeds `getMaxSupportedSize = 2^20`, yet
`allocate` does not route it to the fallback path: the oversize test
compares the raw request (5) against the maximum, so the request reaches
the pool path, a pool is created in slot `getPoolIndex 5`, and the
fallback counter stays 0. -/
theorem oversize_routing_eval :
    getMaxSupportedSize < roundToPowerOf2 5 ∧
    (MemoryManager.fresh.allocate 5 1000 2000).2.fallbackAllocations = 0 ∧
    ((MemoryManager.fresh.allocate 5 1000 2000).2.pools (getPoolIndex 5)).isSome = true := by
  decide

/-- Claim C7 (counterexample): a zero-byte request is not served like a
one-byte request.  On a fresh manager, `allocate 0` returns the null
pointer while `allocate 1` returns a pool block. -/
theorem allocate_zero_ce :
    (MemoryManager.fresh.allocate 0 1000 2000).1 = none ∧
    (MemoryManager.fresh.allocate 1 1000 2000).1 = some 1255 := by decide

/-- Claim C7 (amended): `allocate` rejects a zero-byte request outright,
returning the null pointer and leaving the manager (pools and all
counters) unchanged; no pool is consulted and the general allocator is
not called. -/
theorem allocate_zero_noop (m : MemoryManager) (a f : Nat) :
    m.allocate 0 a f = (none, m) := rfl

/-- Claim C10: deallocating the null pointer returns false and changes
nothing, both on the manager (the null pointer is never handed to the
general allocator, and no counter or pool moves) and on a pool. -/
theorem deallocate_null_noop :
    (∀ m : MemoryManager, m.deallocate 0 = (false, m)) ∧
    (∀ pool : MemoryPool, pool.deallocate 0 = (false, pool)) :=
  ⟨fun _ => rfl, fun _ => rfl⟩

/-- Claim C6: for a pool whose arena base is a real (nonzero) address,
`MemoryPool.deallocate p` fails, leaving the pool untouched, exactly when
`p` is outside the arena or not aligned to a block boundary; otherwise it
pushes `p` back on the free list, decrements `allocatedObjects`,
increments `totalDeallocations` and returns true. -/
theorem pool_deallocate_validation (pool : MemoryPool) (p : Nat)
    (hb : 0 < pool.memStart) :
    pool.deallocate p =
      if pool.containsPointer p ∧ (p - pool.memStart) % pool.objectSize = 0 then
        (true,
         { pool with
             freeList := p :: pool.freeList
             allocatedObjects := (pool.allocatedObjects + (SIZE_MOD - 1)) % SIZE_MOD
             totalDeallocations := (pool.totalDeallocations + 1) % SIZE_MOD })
      else (false, pool) := by
  unfold MemoryPool.deallocate
  by_cases hc : pool.containsPointer p
  · have hp0 : p ≠ 0 := by
      intro h
      subst h
      have := hc.1
      omega
    by_cases ha : (p - pool.memStart) % pool.objectSize = 0
    · simp [hp0, hc, ha]
    · simp [hp0, hc, ha]
  · simp [hc]

/-- In a well-formed pool whose free list satisfies the membership and
alignment conditions, has no duplicates, and is full, every aligned
in-arena address is already on the free list (there are only
`objectCount` such addresses). -/
theorem mem_freeList_of_full (pool : MemoryPool) (hwf : pool.WF)
    (hmem : ∀ q ∈ pool.freeList,
        pool.containsPointer q ∧ (q - pool.memStart) % pool.objectSize = 0)
    (hnd : pool.freeList.Nodup)
    (hfull : pool.objectCount ≤ pool.freeList.length)
    (p : Nat) (hc : pool.containsPointer p)
    (ha : (p - pool.memStart) % pool.objectSize = 0) :
    p ∈ pool.freeList := by
  obtain ⟨hs, hps, hcnt⟩ := hwf
  have key : ∀ q, pool.containsPointer q → (q - pool.memStart) % pool.objectSize = 0 →
      q = pool.memStart + (q - pool.memStart) / pool.objectSize * pool.objectSize ∧
      (q - pool.memStart) / pool.objectSize < pool.objectCount := by
    intro q hq hqa
    have h1 : (q - pool.memStart) / pool.objectSize * pool.objectSize = q - pool.memStart :=
      Nat.div_mul_cancel (Nat.dvd_of_mod_eq_zero hqa)
    have hb := hq.1
    have h2 : q - pool.memStart < pool.objectSize * pool.objectCount := by
      have := hq.2
      rw [hps] at this
      omega
    refine ⟨by omega, ?_⟩
    rw [Nat.div_lt_iff_lt_mul hs]
    calc q - pool.memStart < pool.objectSize * pool.objectCount := h2
    _ = pool.objectCount * pool.objectSize := Nat.mul_comm _ _
  have hinj : ∀ q1 ∈ pool.freeList, ∀ q2 ∈ pool.freeList,
      (q1 - pool.memStart) / pool.objectSize = (q2 - pool.memStart) / pool.objectSize →
      q1 = q2 := by
    intro q1 h1 q2 h2 hg
    have k1 := key q1 (hmem q1 h1).1 (hmem q1 h1).2
    have k2 := key q2 (hmem q2 h2).1 (hmem q2 h2).2
    rw [k1.1, k2.1, hg]
  have hnodup : (pool.freeList.map fun q => (q - pool.memStart) / pool.objectSize).Nodup :=
    hnd.map_on hinj
  have hsub : (pool.freeList.map fun q => (q - pool.memStart) / pool.objectSize).toFinset ⊆
      Finset.range pool.objectCount := by
    intro k hk
    rw [List.mem_toFinset, List.mem_map] at hk
    obtain ⟨q, hq, rfl⟩ := hk
    rw [Finset.mem_range]
    exact (key q (hmem q hq).1 (hmem q hq).2).2
  have hcard : (Finset.range pool.objectCount).card ≤
      (pool.freeList.map fun q => (q - pool.memStart) / pool.objectSize).toFinset.card := by
    rw [List.toFinset_card_of_nodup hnodup, Finset.card_range, List.length_map]
    exact hfull
  have heq := Finset.eq_of_subset_of_card_le hsub hcard
  have hpmem : (p - pool.memStart) / pool.objectSize ∈
      (pool.freeList.map fun q => (q - pool.memStart) / pool.objectSize).toFinset := by
    rw [heq, Finset.mem_range]
    exact (key p hc ha).2
  rw [List.mem_toFinset, List.mem_map] at hpmem
  obtain ⟨q, hq, hgq⟩ := hpmem
  have kq := key q (hmem q hq).1 (hmem q hq).2
  have kp := key p hc ha
  have : q = p := by rw [kq.1, kp.1, hgq]
  exact this ▸ hq

/-- The free-list invariant holds of a freshly constructed pool (nonzero
block size, product not overflowing `size_t`). -/
theorem invariant_create (objSize objCount memStart : Nat)
    (hs : 0 < objSize) (hof : objSize * objCount < SIZE_MOD) :
    (MemoryPool.create objSize objCount memStart).Invariant := by
  have hmod : (objSize * objCount) % SIZE_MOD = objSize * objCount := Nat.mod_eq_of_lt hof
  refine ⟨?_, ?_, ?_⟩
  · intro p hp
    simp only [MemoryPool.create, initFreeList, List.mem_reverse, List.mem_map,
      List.mem_range] at hp
    obtain ⟨i, hi, rfl⟩ := hp
    have hlt : i * objSize < objSize * objCount := by
      calc i * objSize < objCount * objSize := Nat.mul_lt_mul_of_lt_of_le hi (Nat.le_refl _) hs
      _ = objSize * objCount := Nat.mul_comm _ _
    refine ⟨⟨Nat.le_add_right _ _, ?_⟩, ?_⟩
    · show memStart + i * objSize < memStart + (objSize * objCount) % SIZE_MOD
      rw [hmod]
      omega
    · show (memStart + i * objSize - memStart) % objSize = 0
      rw [Nat.add_sub_cancel_left]
      exact Nat.mul_mod_left i objSize
  · show (initFreeList memStart objSize objCount).Nodup
    unfold initFreeList
    rw [List.nodup_reverse]
    refine List.Nodup.map ?_ (List.nodup_range _)
    intro i j hij
    have hij2 : memStart + i * objSize = memStart + j * objSize := hij
    have : i * objSize = j * objSize := by omega
    exact Nat.eq_of_mul_eq_mul_right hs this
  · show 0 + (initFreeList memStart objSize objCount).length = objCount
    simp [initFreeList]

/-- `MemoryPool.allocate` preserves the free-list invariant. -/
theorem invariant_allocate (pool : MemoryPool) (hwf : pool.WF) (hinv : pool.Invariant) :
    (pool.allocate.2).Invariant := by
  obtain ⟨hmem, hnd, hcount⟩ := hinv
  unfold MemoryPool.allocate
  split
  · exact ⟨hmem, hnd, hcount⟩
  next ptr rest heq =>
    have hn := heq ▸ hnd
    refine ⟨?_, (List.nodup_cons.mp hn).2, ?_⟩
    · intro q hq
      exact hmem q (heq ▸ List.mem_cons_of_mem _ hq)
    · show (pool.allocatedObjects + 1) % SIZE_MOD + rest.length = pool.objectCount
      have hlen : pool.freeList.length = rest.length + 1 := by rw [heq]; rfl
      have hcnt := hwf.2.2
      have h1 : (pool.allocatedObjects + 1) % SIZE_MOD = pool.allocatedObjects + 1 :=
        Nat.mod_eq_of_lt (by omega)
      omega

/-- `MemoryPool.deallocate` preserves the free-list invariant provided the
freed pointer is not already on the free list (no double free). -/
theorem invariant_deallocate (pool : MemoryPool) (p : Nat)
    (hwf : pool.WF) (hinv : pool.Invariant) (hnf : p ∉ pool.freeList) :
    ((pool.deallocate p).2).Invariant := by
  unfold MemoryPool.deallocate
  split
  · exact hinv
  next hcond =>
    push_neg at hcond
    obtain ⟨hp0, hc⟩ := hcond
    split
    · exact hinv
    next ha =>
      push_neg at ha
      obtain ⟨hmem, hnd, hcount⟩ := hinv
      have hlen : pool.freeList.length < pool.objectCount := by
        by_contra hge
        push_neg at hge
        exact hnf (mem_freeList_of_full pool hwf hmem hnd hge p hc ha)
      have hcnt := hwf.2.2
      have hmod : (pool.allocatedObjects + (SIZE_MOD - 1)) % SIZE_MOD =
          pool.allocatedObjects - 1 := by
        have h1 : pool.allocatedObjects + (SIZE_MOD - 1) =
            SIZE_MOD + (pool.allocatedObjects - 1) := by omega
        rw [h1, Nat.add_mod_left]
        exact Nat.mod_eq_of_lt (by omega)
      refine ⟨?_, ?_, ?_⟩
      · intro q hq
        rcases List.mem_cons.mp hq with rfl | hq'
        · exact ⟨hc, ha⟩
        · exact hmem q hq'
      · exact List.nodup_cons.mpr ⟨hnf, hnd⟩
      · show (pool.allocatedObjects + (SIZE_MOD - 1)) % SIZE_MOD +
            (p :: pool.freeList).length = pool.objectCount
        rw [hmod, List.length_cons]
        omega

/-- Claim C3 (amended): the free-list invariant is established by the pool
constructor (for a nonzero block size whose arena size does not overflow
`size_t`) and preserved by every `allocate` call and by every `deallocate`
call whose pointer is not already free (the pool has no double-free guard,
so a repeated `deallocate` of the same pointer is excluded). -/
theorem pool_invariant_preserved :
    (∀ objSize objCount memStart : Nat, 0 < objSize → objSize * objCount < SIZE_MOD →
       (MemoryPool.create objSize objCount memStart).Invariant) ∧
    (∀ pool : MemoryPool, pool.WF → pool.Invariant → (pool.allocate.2).Invariant) ∧
    (∀ (pool : MemoryPool) (p : Nat), pool.WF → pool.Invariant → p ∉ pool.freeList →
       ((pool.deallocate p).2).Invariant) :=
  ⟨invariant_create, invariant_allocate, invariant_deallocate⟩

/-- Claim C3 witness: the invariant holds of the fresh two-block pool at
base 100 and is preserved across one allocation followed by one legitimate
deallocation of the obtained block. -/
theorem pool_invariant_preserved_witness :
    (MemoryPool.create 4 2 100).Invariant ∧
    (((MemoryPool.create 4 2 100).allocate.2.deallocate 104).2).Invariant := by
  have h := pool_invariant_preserved
  have h0 : (MemoryPool.create 4 2 100).Invariant := h.1 4 2 100 (by decide) (by decide)
  have h1 : ((MemoryPool.create 4 2 100).allocate.2).Invariant :=
    h.2.1 _ (by decide) h0
  exact ⟨h0, h.2.2 _ 104 (by decide) h1 (by decide)⟩

/-- Claim C3 (counterexample): the invariant is not preserved by every
`deallocate` call.  In the two-block pool of 4-byte objects at base 100,
allocate block 104, deallocate it, and deallocate it again: the second
(double) free is accepted, pushes 104 a second time, and the resulting
state violates the invariant (duplicate free-list entry and broken
count). -/
theorem pool_invariant_double_free_ce :
    ((((MemoryPool.create 4 2 100).allocate.2).deallocate 104).2).Invariant ∧
    ¬ (((((MemoryPool.create 4 2 100).allocate.2).deallocate 104).2.deallocate 104).2).Invariant := by
  decide

/-- Claim C6 witness: in the two-block pool of 4-byte objects at base 100,
freeing address 104 succeeds and freeing the misaligned address 105
fails. -/
theorem pool_deallocate_validation_witness :
    ((MemoryPool.create 4 2 100).deallocate 104).1 = true ∧
    ((MemoryPool.create 4 2 100).deallocate 105).1 = false := by
  have h1 := pool_deallocate_validation (MemoryPool.create 4 2 100) 104 (by decide)
  have h2 := pool_deallocate_validation (MemoryPool.create 4 2 100) 105 (by decide)
  rw [h1, h2]
  decide

/-- The pool scan returns nothing exactly when no existing pool claims the
pointer. -/
theorem scanPools_eq_none (ps : Nat → Option MemoryPool) (p : Nat) (l : List Nat) :
    scanPools ps p l = none ↔
      ∀ i ∈ l, ∀ pool, ps i = some pool → ¬ pool.containsPointer p := by
  induction l with
  | nil => simp [scanPools]
  | cons i rest ih =>
    rw [List.forall_mem_cons]
    cases hpi : ps i with
    | none =>
      simp only [scanPools, hpi]
      rw [ih]
      constructor
      · intro h
        refine ⟨?_, h⟩
        intro pool hpool
        exact absurd hpool (by simp)
      · intro h
        exact h.2
    | some pool =>
      simp only [scanPools, hpi]
      by_cases hc : pool.containsPointer p
      · rw [if_pos hc]
        constructor
        · intro h
          exact absurd h (by simp)
        · intro h
          exact absurd hc (h.1 pool rfl)
      · rw [if_neg hc, ih]
        constructor
        · intro h
          refine ⟨?_, h⟩
          intro pool2 hpool2
          exact (Option.some.inj hpool2) ▸ hc
        · intro h
          exact h.2

/-- When the pool scan finds a pool, that pool sits in the returned slot
and its arena contains the pointer. -/
theorem scanPools_eq_some (ps : Nat → Option MemoryPool) (p : Nat) (l : List Nat)
    (i : Nat) (pool : MemoryPool)
    (h : scanPools ps p l = some (i, pool)) :
    i ∈ l ∧ ps i = some pool ∧ pool.containsPointer p := by
  induction l with
  | nil => exact absurd h (by simp [scanPools])
  | cons j rest ih =>
    cases hpj : ps j with
    | none =>
      simp only [scanPools, hpj] at h
      have hr := ih h
      exact ⟨List.mem_cons_of_mem _ hr.1, hr.2⟩
    | some pool2 =>
      simp only [scanPools, hpj] at h
      by_cases hc : pool2.containsPointer p
      · rw [if_pos hc] at h
        have hpair := Option.some.inj h
        rw [Prod.mk.injEq] at hpair
        obtain ⟨hj, hp2⟩ := hpair
        subst hj
        subst hp2
        exact ⟨List.mem_cons_self _ _, hpj, hc⟩
      · rw [if_neg hc] at h
        have hr := ih h
        exact ⟨List.mem_cons_of_mem _ hr.1, hr.2⟩

/-- Claim C4: for every non-null pointer, if some existing pool's arena
contains it, `MemoryManager.deallocate` delegates to (the first) such
pool, returns that pool's verdict, and bumps `totalDeallocations` exactly
when the pool call succeeds; if no pool claims the pointer (in particular,
for any pointer obtained from the fallback path, which lies outside every
arena) it is released through the general allocator, the counter is
bumped, and the call returns true. -/
theorem deallocate_routing (m : MemoryManager) (p : Nat) (hp : p ≠ 0) :
    ((∃ i, i ∈ List.range MAX_POOLS ∧
        ∃ pool, m.pools i = some pool ∧ pool.containsPointer p) →
      ∃ i pool, m.findPoolForPointer p = some (i, pool) ∧
        m.pools i = some pool ∧ pool.containsPointer p ∧
        m.deallocate p =
          (if ((pool.deallocate p).1 : Bool) then
            (true,
             { m with
                 pools := setPool m.pools i (pool.deallocate p).2
                 totalDeallocations := (m.totalDeallocations + 1) % SIZE_MOD })
           else (false, { m with pools := setPool m.pools i (pool.deallocate p).2 }))) ∧
    ((∀ i ∈ List.range MAX_POOLS, ∀ pool, m.pools i = some pool →
        ¬ pool.containsPointer p) →
      m.deallocate p =
        (true, { m with totalDeallocations := (m.totalDeallocations + 1) % SIZE_MOD })) := by
  constructor
  · intro hex
    cases hfind : m.findPoolForPointer p with
    | none =>
      exfalso
      rw [MemoryManager.findPoolForPointer, scanPools_eq_none] at hfind
      obtain ⟨i, hi, pool, hpi, hc⟩ := hex
      exact hfind i hi pool hpi hc
    | some ip =>
      obtain ⟨i, pool⟩ := ip
      have hprops := scanPools_eq_some _ _ _ _ _ hfind
      refine ⟨i, pool, rfl, hprops.2.1, hprops.2.2, ?_⟩
      unfold MemoryManager.deallocate
      rw [if_neg hp, hfind]
  · intro hall
    have hfind : m.findPoolForPointer p = none := by
      rw [MemoryManager.findPoolForPointer, scanPools_eq_none]
      exact hall
    unfold MemoryManager.deallocate
    rw [if_neg hp, hfind]

/-- Claim C4 witness: on the concrete manager, the pointer 50 (outside the
only arena, as a fallback pointer would be) is released through the
general allocator with the counter bumped, and the in-arena pointer 101 is
delegated to the pool and accepted. -/
theorem deallocate_routing_witness :
    (demoManager.deallocate 50).1 = true ∧
    (demoManager.deallocate 50).2.totalDeallocations = 1 ∧
    (demoManager.deallocate 101).1 = true := by
  have hnone : ∀ i ∈ List.range MAX_POOLS, ∀ pool, demoManager.pools i = some pool →
      ¬ pool.containsPointer 50 := by
    intro i _ pool hpi
    by_cases h0 : i = 0
    · subst h0
      have h00 : demoManager.pools 0 = some (MemoryPool.create 1 2 100) := rfl
      rw [h00] at hpi
      rw [← Option.some.inj hpi]
      decide
    · have hn : demoManager.pools i = none := by simp [demoManager, h0]
      rw [hn] at hpi
      exact absurd hpi (by simp)
  have h2 := (deallocate_routing demoManager 50 (by decide)).2 hnone
  have hex : ∃ i, i ∈ List.range MAX_POOLS ∧ ∃ pool,
      demoManager.pools i = some pool ∧ pool.containsPointer 101 :=
    ⟨0, by decide, MemoryPool.create 1 2 100, rfl, by decide⟩
  obtain ⟨i, pool, hfind, _, _, heq⟩ := (deallocate_routing demoManager 101 (by decide)).1 hex
  have hfind0 : demoManager.findPoolForPointer 101 = some (0, MemoryPool.create 1 2 100) := by
    decide
  rw [hfind0] at hfind
  have hpair := Option.some.inj hfind
  rw [Prod.mk.injEq] at hpair
  obtain ⟨hi0, hp0⟩ := hpair
  subst hi0
  subst hp0
  refine ⟨by rw [h2], by rw [h2]; decide, ?_⟩
  rw [heq]
  decide

/-- Claim C9: `setStrategy` replaces only the strategy object: the pool
array and every counter are untouched; an allocation whose size class
already has a pool returns the same pointer and leaves the same pools with
either strategy in place (the strategy is not consulted); and a pool
created after the swap takes its object count from the new strategy. -/
theorem setStrategy_frame (m : MemoryManager) (s : PoolStrategy) :
    (m.setStrategy s).pools = m.pools ∧
    (m.setStrategy s).totalAllocations = m.totalAllocations ∧
    (m.setStrategy s).totalDeallocations = m.totalDeallocations ∧
    (m.setStrategy s).fallbackAllocations = m.fallbackAllocations ∧
    (∀ size a f, (m.pools (getPoolIndex size)).isSome = true →
      ((m.setStrategy s).allocate size a f).1 = (m.allocate size a f).1 ∧
      ((m.setStrategy s).allocate size a f).2.pools = (m.allocate size a f).2.pools) ∧
    (∀ size a, m.pools (getPoolIndex size) = none →
      ((m.setStrategy s).getOrCreatePool size a).2.1.objectCount =
        s.calculateObjectCount (roundToPowerOf2 size)) := by
  refine ⟨rfl, rfl, rfl, rfl, ?_, ?_⟩
  · intro size a f hsome
    obtain ⟨pool, hpool⟩ := Option.isSome_iff_exists.mp hsome
    by_cases h0 : size = 0
    · subst h0
      exact ⟨rfl, rfl⟩
    by_cases hbig : getMaxSupportedSize < size
    · simp only [MemoryManager.allocate, if_neg h0, if_pos hbig]
      exact ⟨trivial, rfl⟩
    · simp only [MemoryManager.allocate, MemoryManager.getOrCreatePool,
        MemoryManager.setStrategy, if_neg h0, if_neg hbig, hpool]
      cases hpa : pool.allocate with
      | mk res pool2 =>
        cases res with
        | some ptr => exact ⟨rfl, rfl⟩
        | none => exact ⟨rfl, rfl⟩
  · intro size a hnone
    simp only [MemoryManager.getOrCreatePool, MemoryManager.setStrategy, hnone]
    rfl

/-- Claim C9 witness: on the concrete manager, allocating from the already
initialized 1-byte class returns the same pointer before and after the
strategy swap, and a pool created after the swap gets the new object
count (7). -/
theorem setStrategy_frame_witness :
    ((demoManager.setStrategy sevenStrategy).allocate 1 500 600).1 =
      (demoManager.allocate 1 500 600).1 ∧
    ((demoManager.setStrategy sevenStrategy).getOrCreatePool 64 700).2.1.objectCount = 7 := by
  have h := setStrategy_frame demoManager sevenStrategy
  constructor
  · exact (h.2.2.2.2.1 1 500 600 (by decide)).1
  · have h6 := h.2.2.2.2.2 64 700 (by decide)
    rw [h6]
    rfl

/-- Reading back the slot just written. -/
theorem setPool_same (ps : Nat → Option MemoryPool) (i : Nat) (pool : MemoryPool) :
    setPool ps i pool i = some pool := by
  simp [setPool]

/-- Overwriting the same slot twice keeps only the second write. -/
theorem setPool_twice (ps : Nat → Option MemoryPool) (i : Nat) (p1 p2 : MemoryPool) :
    setPool (setPool ps i p1) i p2 = setPool ps i p2 := by
  funext j
  by_cases hj : j = i <;> simp [setPool, hj]

/-- One `MemoryManager.allocate` call served from an existing pool with a
nonempty free list: it pops the back of that free list. -/
theorem allocate_step_pool (m : MemoryManager) (size a f : Nat) (pool : MemoryPool)
    (q : Nat) (rest : List Nat)
    (h0 : size ≠ 0) (hbig : ¬ getMaxSupportedSize < size)
    (hpool : m.pools (getPoolIndex size) = some pool)
    (hfl : pool.freeList = q :: rest) :
    m.allocate size a f =
      (some q,
       { m with
           pools := setPool m.pools (getPoolIndex size)
             { pool with
                 freeList := rest
                 allocatedObjects := (pool.allocatedObjects + 1) % SIZE_MOD
                 totalAllocations := (pool.totalAllocations + 1) % SIZE_MOD }
           totalAllocations := (m.totalAllocations + 1) % SIZE_MOD }) := by
  simp only [MemoryManager.allocate, MemoryManager.getOrCreatePool, MemoryPool.allocate,
    if_neg h0, if_neg hbig, hpool, hfl]

/-- One `MemoryManager.allocate` call that finds its pool exhausted: the
request is served by the general allocator and the fallback counter is
bumped; the pool keeps its (empty) free list and its capacity. -/
theorem allocate_step_exhausted (m : MemoryManager) (size a f : Nat) (pool : MemoryPool)
    (h0 : size ≠ 0) (hbig : ¬ getMaxSupportedSize < size)
    (hpool : m.pools (getPoolIndex size) = some pool)
    (hfl : pool.freeList = []) :
    m.allocate size a f =
      (some f,
       { m with
           pools := setPool m.pools (getPoolIndex size) pool
           fallbackAllocations := (m.fallbackAllocations + 1) % SIZE_MOD
           totalAllocations := (m.totalAllocations + 1) % SIZE_MOD }) := by
  simp only [MemoryManager.allocate, MemoryManager.getOrCreatePool, MemoryPool.allocate,
    if_neg h0, if_neg hbig, hpool, hfl]

/-- Draining an existing pool: as many `allocate` calls as there are free
blocks all succeed, returning exactly the free-list entries in order, and
only the slot of that pool and the total-allocation counters change: the
fallback counter is untouched. -/
theorem allocateN_drain (size a f : Nat) (h0 : size ≠ 0)
    (hbig : ¬ getMaxSupportedSize < size) :
    ∀ (fl : List Nat) (m : MemoryManager) (pool : MemoryPool),
      m.pools (getPoolIndex size) = some pool →
      pool.freeList = fl →
      pool.allocatedObjects < SIZE_MOD →
      pool.totalAllocations < SIZE_MOD →
      m.totalAllocations < SIZE_MOD →
      m.allocateN size a f fl.length =
        (fl.map some,
         { m with
             pools := setPool m.pools (getPoolIndex size)
               { pool with
                   freeList := []
                   allocatedObjects := (pool.allocatedObjects + fl.length) % SIZE_MOD
                   totalAllocations := (pool.totalAllocations + fl.length) % SIZE_MOD }
             totalAllocations := (m.totalAllocations + fl.length) % SIZE_MOD }) := by
  intro fl
  induction fl with
  | nil =>
    intro m pool hpool hfl ha ht hT
    simp only [List.length_nil, List.map_nil, MemoryManager.allocateN]
    rw [Prod.mk.injEq]
    refine ⟨rfl, ?_⟩
    have hpoolR : pool = ({ pool with
        freeList := ([] : List Nat)
        allocatedObjects := (pool.allocatedObjects + 0) % SIZE_MOD
        totalAllocations := (pool.totalAllocations + 0) % SIZE_MOD } : MemoryPool) := by
      refine MemoryPool.ext rfl rfl rfl rfl hfl ?_ ?_ rfl
      · simpa using (Nat.mod_eq_of_lt ha).symm
      · simpa using (Nat.mod_eq_of_lt ht).symm
    refine MemoryManager.ext ?_ rfl ?_ rfl rfl
    · funext j
      by_cases hj : j = getPoolIndex size
      · subst hj
        dsimp only
        rw [hpool, setPool_same]
        exact congrArg some hpoolR
      · simp [setPool, hj]
    · simpa using (Nat.mod_eq_of_lt hT).symm
  | cons q rest ih =>
    intro m pool hpool hfl ha ht hT
    have hstep := allocate_step_pool m size a f pool q rest h0 hbig hpool hfl
    have hih := ih
      { m with
          pools := setPool m.pools (getPoolIndex size)
            { pool with
                freeList := rest
                allocatedObjects := (pool.allocatedObjects + 1) % SIZE_MOD
                totalAllocations := (pool.totalAllocations + 1) % SIZE_MOD }
          totalAllocations := (m.totalAllocations + 1) % SIZE_MOD }
      { pool with
          freeList := rest
          allocatedObjects := (pool.allocatedObjects + 1) % SIZE_MOD
          totalAllocations := (pool.totalAllocations + 1) % SIZE_MOD }
      (by simp [setPool]) rfl
      (Nat.mod_lt _ (by decide)) (Nat.mod_lt _ (by decide)) (Nat.mod_lt _ (by decide))
    have e1 : ((pool.allocatedObjects + 1) % SIZE_MOD + rest.length) % SIZE_MOD =
        (pool.allocatedObjects + (rest.length + 1)) % SIZE_MOD := by
      rw [Nat.mod_add_mod]
      congr 1
      omega
    have e2 : ((pool.totalAllocations + 1) % SIZE_MOD + rest.length) % SIZE_MOD =
        (pool.totalAllocations + (rest.length + 1)) % SIZE_MOD := by
      rw [Nat.mod_add_mod]
      congr 1
      omega
    have e3 : ((m.totalAllocations + 1) % SIZE_MOD + rest.length) % SIZE_MOD =
        (m.totalAllocations + (rest.length + 1)) % SIZE_MOD := by
      rw [Nat.mod_add_mod]
      congr 1
      omega
    simp only [List.length_cons, MemoryManager.allocateN, hstep, hih]
    rw [Prod.mk.injEq]
    refine ⟨by simp, ?_⟩
    refine MemoryManager.ext ?_ rfl ?_ rfl rfl
    · dsimp only
      rw [setPool_twice]
      refine congrArg (setPool m.pools (getPoolIndex size)) ?_
      exact MemoryPool.ext rfl rfl rfl rfl rfl e1 e2 rfl
    · exact e3

/-- Claim C2: starting from a manager whose pool for the requested size
class holds `objectCount` free blocks, `objectCount` allocations of that
class all succeed and return exactly the pool's free blocks (the fallback
counter is untouched); the next allocation of the same class is served by
the general allocator, bumping the fallback counter and the total counter
by exactly one, and the pool is neither grown nor replaced: its slot still
holds the same pool, merely drained (same capacity, same arena, empty free
list). -/
theorem pool_exhaustion_fallback (m : MemoryManager) (size a f : Nat) (pool : MemoryPool)
    (h0 : size ≠ 0) (hbig : ¬ getMaxSupportedSize < size)
    (hpool : m.pools (getPoolIndex size) = some pool)
    (hfull : pool.freeList.length = pool.objectCount)
    (ha : pool.allocatedObjects < SIZE_MOD)
    (ht : pool.totalAllocations < SIZE_MOD)
    (hT : m.totalAllocations < SIZE_MOD) :
    (m.allocateN size a f pool.objectCount).1 = pool.freeList.map some ∧
    (m.allocateN size a f pool.objectCount).2.fallbackAllocations = m.fallbackAllocations ∧
    ((m.allocateN size a f pool.objectCount).2.allocate size a f).1 = some f ∧
    ((m.allocateN size a f pool.objectCount).2.allocate size a f).2.fallbackAllocations =
      (m.fallbackAllocations + 1) % SIZE_MOD ∧
    ((m.allocateN size a f pool.objectCount).2.allocate size a f).2.totalAllocations =
      ((m.allocateN size a f pool.objectCount).2.totalAllocations + 1) % SIZE_MOD ∧
    ((m.allocateN size a f pool.objectCount).2.allocate size a f).2.pools (getPoolIndex size) =
      some { pool with
               freeList := []
               allocatedObjects := (pool.allocatedObjects + pool.objectCount) % SIZE_MOD
               totalAllocations := (pool.totalAllocations + pool.objectCount) % SIZE_MOD } := by
  have hdrain := allocateN_drain size a f h0 hbig pool.freeList m pool hpool rfl ha ht hT
  rw [hfull] at hdrain
  have hfp : (m.allocateN size a f pool.objectCount).2.pools (getPoolIndex size) =
      some { pool with
               freeList := ([] : List Nat)
               allocatedObjects := (pool.allocatedObjects + pool.objectCount) % SIZE_MOD
               totalAllocations := (pool.totalAllocations + pool.objectCount) % SIZE_MOD } := by
    rw [hdrain]
    dsimp only
    rw [setPool_same]
  have hstep := allocate_step_exhausted (m.allocateN size a f pool.objectCount).2 size a f
    _ h0 hbig hfp rfl
  refine ⟨?_, ?_, ?_, ?_, ?_, ?_⟩
  · rw [hdrain]
  · rw [hdrain]
  · rw [hstep]
  · rw [hstep]
    dsimp only
    rw [hdrain]
  · rw [hstep]
  · rw [hstep]
    dsimp only
    rw [setPool_same]

/-- Claim C2 witness: the concrete manager's 1-byte class holds 2 blocks;
two allocations return them both from the pool, and the third is served by
the general allocator (address 600) with the fallback counter going from 0
to 1. -/
theorem pool_exhaustion_fallback_witness :
    (demoManager.allocateN 1 500 600 2).1 = [some 101, some 100] ∧
    ((demoManager.allocateN 1 500 600 2).2.allocate 1 500 600).1 = some 600 ∧
    ((demoManager.allocateN 1 500 600 2).2.allocate 1 500 600).2.fallbackAllocations = 1 := by
  have h := pool_exhaustion_fallback demoManager 1 500 600 (MemoryPool.create 1 2 100)
    (by decide) (by decide) (by decide) (by decide) (by decide) (by decide) (by decide)
  refine ⟨?_, ?_, ?_⟩
  · exact h.1.trans (by decide)
  · exact h.2.2.1
  · exact h.2.2.2.1.trans (by decide)

end SDK
